import Mathlib

/-!
Shallow embedding of the core of `app.py` (video-downloader-api): the
format classifier `categorize_formats`, the helpers `format_duration` and
`format_filesize`, the `url` resolution of the `/api/fetch` route, and the
error mapping of `extract_video_info`.

Python values that may be a missing dict key, an explicit `None`, or a
value are modelled by `PyField`; `fmt.get(k)` is `pyGet` (missing and
`None` both read back as `none`) and `fmt.get(k, d)` is `pyGetD` (the
default fires only for a missing key, exactly as in Python).  Python
truthiness (`if not x`, `x or y`) is modelled per type: `None` and a
missing key are falsy, `0` is falsy for numbers, `""` is falsy for
strings.  Machine floats only appear in `format_filesize`, where every
intermediate value is `n / 1024^k` — exact in binary floating point for
the sizes involved — so the computation is modelled with exact natural
arithmetic plus round-half-to-even for the one-decimal rendering, which is
what CPython's `f"{x:.1f}"` performs on these exact values.
-/

/-- A Python value reaching `format_duration` / `format_filesize`:
`None`, an int, or a string (`int(s)` parses or raises). -/
inductive PyVal where
  | none_
  | int (n : Nat)
  | str (s : String)
deriving DecidableEq

/-- Python truthiness of a `PyVal` (`if not duration: ...`). -/
def truthyVal : PyVal → Bool
  | .none_ => false
  | .int n => n != 0
  | .str s => s != ""

/-- Decimal digit value of a character, if it is a digit. -/
def charDigit (c : Char) : Option Nat :=
  if 48 ≤ c.toNat ∧ c.toNat ≤ 57 then some (c.toNat - 48) else none

/-- Accumulating decimal parse; `none` until a digit has been seen, and
any non-digit aborts. -/
def digitsValAux : Option Nat → List Char → Option Nat
  | acc, [] => acc
  | acc, c :: cs =>
    match charDigit c, acc with
    | some d, some n => digitsValAux (some (n * 10 + d)) cs
    | some d, none => digitsValAux (some d) cs
    | none, _ => none

/-- Python `int(s)` on a string, restricted to plain digit strings:
parses a non-empty all-digit string, anything else raises (modelled as
`none`, caught by the bare `except` in the source). -/
def pyParseInt (s : String) : Option Nat := digitsValAux none s.data

/-- Python `int(x)`: ints pass through, strings parse or raise. -/
def pyToInt : PyVal → Option Nat
  | .none_ => none
  | .int n => some n
  | .str s => pyParseInt s

/-- The Arabic "not specified" placeholder (`"غير محدد"`). -/
def notSpecified : String := "غير محدد"

/-- Python `f"{n:02d}"`: decimal rendering zero-padded to width 2. -/
def pad2 (n : Nat) : String :=
  if n < 10 then "0" ++ toString n else toString n

/-- Function `format_duration` from `app.py` lines 63-79: falsy input or a
non-numeric string yields the placeholder, otherwise `HH:MM:SS` when
hours > 0 else `MM:SS`, all fields zero-padded to two digits. -/
def format_duration (duration : PyVal) : String :=
  if truthyVal duration = false then notSpecified
  else
    match pyToInt duration with
    | none => notSpecified
    | some d =>
      let hours := d / 3600
      let minutes := d % 3600 / 60
      let seconds := d % 60
      if hours > 0 then pad2 hours ++ ":" ++ pad2 minutes ++ ":" ++ pad2 seconds
      else pad2 minutes ++ ":" ++ pad2 seconds

/-- Round `num / den` half to even (what binary-float `f"{x:.1f}"` does on
the exact dyadic values produced by repeated division by 1024). -/
def roundHalfEven (num den : Nat) : Nat :=
  let q := num / den
  let r := num % den
  if 2 * r < den then q
  else if den < 2 * r then q + 1
  else if q % 2 = 0 then q else q + 1

/-- Render `n / 1024^k` with one decimal place, as `f"{x:.1f}"` does. -/
def oneDecimal (n k : Nat) : String :=
  let d := roundHalfEven (10 * n) (1024 ^ k)
  toString (d / 10) ++ "." ++ toString (d % 10)

/-- Function `format_filesize` from `app.py` lines 81-94: falsy input or a
non-numeric string yields the placeholder; otherwise the loop over
`B/KB/MB/GB` (falling through to `TB`) is unrolled, with the value divided
by 1024 at each step. -/
def format_filesize (filesize : PyVal) : String :=
  if truthyVal filesize = false then notSpecified
  else
    match pyToInt filesize with
    | none => notSpecified
    | some n =>
      if n < 1024 then oneDecimal n 0 ++ " B"
      else if n < 1024 ^ 2 then oneDecimal n 1 ++ " KB"
      else if n < 1024 ^ 3 then oneDecimal n 2 ++ " MB"
      else if n < 1024 ^ 4 then oneDecimal n 3 ++ " GB"
      else oneDecimal n 4 ++ " TB"

/-- A dict entry: missing key, key present with value `None`, or a value. -/
inductive PyField (α : Type) where
  | absent
  | null
  | val (a : α)
deriving DecidableEq

/-- Python `fmt.get(k)`: both a missing key and `None` read as `none`. -/
def pyGet {α : Type} : PyField α → Option α
  | .absent => none
  | .null => none
  | .val a => some a

/-- Python `fmt.get(k, d)`: the default fires only for a missing key; a
key holding `None` still reads back as `None`. -/
def pyGetD {α : Type} (d : α) : PyField α → Option α
  | .absent => some d
  | .null => none
  | .val a => some a

/-- Python truthiness of `fmt.get(k)` for a string field. -/
def truthyS : Option String → Bool
  | some s => s != ""
  | none => false

/-- Python truthiness of `fmt.get(k)` for a numeric field. -/
def truthyN : Option Nat → Bool
  | some n => n != 0
  | none => false

/-- One raw yt-dlp format record (the dict fields read by
`categorize_formats`). -/
structure RawFormat where
  format_id : PyField String
  url : PyField String
  ext : PyField String
  format_note : PyField String
  width : PyField Nat
  height : PyField Nat
  fps : PyField Nat
  vcodec : PyField String
  acodec : PyField String
  abr : PyField Nat
  tbr : PyField Nat
  filesize : PyField Nat
deriving DecidableEq

/-- The `format_info` dict built at `app.py` lines 106-120.  Fields read
with plain `fmt.get(k)` can be Python `None`, hence `Option`. -/
structure NormalizedFormat where
  id : Option String
  url : Option String
  ext : Option String
  quality : Option String
  filesize : String
  filesize_bytes : Option Nat
  width : Option Nat
  height : Option Nat
  fps : Option Nat
  vcodec : Option String
  acodec : Option String
  abr : Option Nat
  tbr : Option Nat
deriving DecidableEq

/-- Arabic default quality label `"جودة عادية"` ("standard quality"). -/
def defaultQuality : String := "جودة عادية"

/-- Lift `fmt.get('filesize')` to the argument type of `format_filesize`. -/
def pyValOfOpt : Option Nat → PyVal
  | none => .none_
  | some n => .int n

/-- The `format_info` dict exactly as initialised at lines 106-120. -/
def mkFormatInfo (fmt : RawFormat) : NormalizedFormat :=
  { id := pyGetD "" fmt.format_id
    url := pyGetD "" fmt.url
    ext := pyGetD "mp4" fmt.ext
    quality := pyGetD defaultQuality fmt.format_note
    filesize := format_filesize (pyValOfOpt (pyGet fmt.filesize))
    filesize_bytes := pyGetD 0 fmt.filesize
    width := pyGet fmt.width
    height := pyGet fmt.height
    fps := pyGet fmt.fps
    vcodec := pyGetD "none" fmt.vcodec
    acodec := pyGetD "none" fmt.acodec
    abr := pyGet fmt.abr
    tbr := pyGet fmt.tbr }

/-- Line 123: `has_video = fmt.get('vcodec') not in ['none', None] and
fmt.get('width')`. -/
def hasVideoB (fmt : RawFormat) : Bool :=
  (match pyGet fmt.vcodec with
   | some s => s != "none"
   | none => false) && truthyN (pyGet fmt.width)

/-- Line 124: `has_audio = fmt.get('acodec') not in ['none', None]`. -/
def hasAudioB (fmt : RawFormat) : Bool :=
  match pyGet fmt.acodec with
  | some s => s != "none"
  | none => false

/-- Lines 130-131: the frame-rate suffix, appended only when `fps` is
truthy and greater than 30 (the raw value, no rounding). -/
def fpsSuffix (fps : Option Nat) : String :=
  match fps with
  | some f => if 30 < f then toString f else ""
  | none => ""

/-- Lines 126-133: in the combined branch the quality label is
overwritten with `f"{height}p"` (plus fps suffix) only when `height` is
truthy. -/
def combinedInfo (fmt : RawFormat) : NormalizedFormat :=
  let fi := mkFormatInfo fmt
  match pyGet fmt.height with
  | some h =>
    if h != 0 then
      { fi with quality := some (toString h ++ "p" ++ fpsSuffix (pyGet fmt.fps)) }
    else fi
  | none => fi

/-- Lines 135-140: the video-only branch, label `f"{height}p (فيديو فقط)"`
only when `height` is truthy. -/
def videoOnlyInfo (fmt : RawFormat) : NormalizedFormat :=
  let fi := mkFormatInfo fmt
  match pyGet fmt.height with
  | some h =>
    if h != 0 then
      { fi with quality := some (toString h ++ "p (فيديو فقط)") }
    else fi
  | none => fi

/-- Line 146: `fmt.get('ext') in ['mp3', 'm4a', 'webm']` (a `None` from a
missing or null key is not in the list). -/
def extListCheck (e : Option String) : Bool :=
  e == some "mp3" || e == some "m4a" || e == some "webm"

/-- Python `s.upper()` (character-wise; the extensions involved are
ASCII). -/
def strUpper (s : String) : String := ⟨s.data.map Char.toUpper⟩

/-- Lines 144-149: the audio-only quality label.  The `getD` reads
recover the value whose presence the preceding truthiness / membership
test just established. -/
def audioQuality (fmt : RawFormat) : String :=
  if truthyN (pyGet fmt.abr) then toString ((pyGet fmt.abr).getD 0) ++ "kbps"
  else if extListCheck (pyGet fmt.ext) then strUpper ((pyGet fmt.ext).getD "")
  else defaultQuality

/-- Lines 142-151: the audio-only branch always overwrites the label. -/
def audioOnlyInfo (fmt : RawFormat) : NormalizedFormat :=
  { mkFormatInfo fmt with quality := some (audioQuality fmt) }

/-- Lines 102-104: records without a truthy direct `url` are skipped. -/
def keepFmt (fmt : RawFormat) : Bool := truthyS (pyGet fmt.url)

/-- The `combined` list accumulated by the loop (lines 102-133), in
extractor order. -/
def combinedList (formats : List RawFormat) : List NormalizedFormat :=
  formats.filterMap fun fmt =>
    if keepFmt fmt && (hasVideoB fmt && hasAudioB fmt) then some (combinedInfo fmt) else none

/-- The `video_only` list accumulated by the loop, in extractor order. -/
def videoOnlyList (formats : List RawFormat) : List NormalizedFormat :=
  formats.filterMap fun fmt =>
    if keepFmt fmt && (hasVideoB fmt && !hasAudioB fmt) then some (videoOnlyInfo fmt) else none

/-- The `audio_only` list accumulated by the loop, in extractor order. -/
def audioOnlyList (formats : List RawFormat) : List NormalizedFormat :=
  formats.filterMap fun fmt =>
    if keepFmt fmt && (hasAudioB fmt && !hasVideoB fmt) then some (audioOnlyInfo fmt) else none

/-- A sort key as Python sees it: the raw `height`/`abr` and
`filesize_bytes` entries of `format_info`, each possibly `None` (the `0`
defaults in `x.get('height', 0)` etc. are dead, the keys always exist). -/
abbrev SKey := Option Nat × Option Nat

/-- Python `==` on a key component (`None == None` is `True`,
`None == int` is `False`). -/
def pyEqO : Option Nat → Option Nat → Bool
  | none, none => true
  | some x, some y => x == y
  | _, _ => false

/-- Python `<` on a key component: defined on two ints, a `TypeError`
(modelled as `.error ()`) when either side is `None`. -/
def pyLtO : Option Nat → Option Nat → Except Unit Bool
  | some x, some y => .ok (decide (x < y))
  | _, _ => .error ()

/-- Python `<` on a key pair: tuple comparison finds the first component
where the sides are not `==` and compares it with `<`. -/
def pyTupLt (a b : SKey) : Except Unit Bool :=
  if pyEqO a.1 b.1 then
    if pyEqO a.2 b.2 then .ok false
    else pyLtO a.2 b.2
  else pyLtO a.1 b.1

/-- Stable descending insertion with Python's raising comparison:
`x` is placed before the first `y` whose key is strictly below `x`'s, so
equal keys keep their original order (CPython's sort with `reverse=True`
is stable in the same sense). -/
def pyInsertRev {α : Type} (κ : α → SKey) (x : α) : List α → Except Unit (List α)
  | [] => .ok [x]
  | y :: ys =>
    match pyTupLt (κ y) (κ x) with
    | .error e => .error e
    | .ok true => .ok (x :: y :: ys)
    | .ok false =>
      match pyInsertRev κ x ys with
      | .error e => .error e
      | .ok r => .ok (y :: r)

/-- Fold of `pyInsertRev` over the list; a raising comparison aborts the
whole sort, as `list.sort` does. -/
def pySortRevAux {α : Type} (κ : α → SKey) (acc : List α) : List α → Except Unit (List α)
  | [] => .ok acc
  | x :: xs =>
    match pyInsertRev κ x acc with
    | .error e => .error e
    | .ok acc2 => pySortRevAux κ acc2 xs

/-- Python `list.sort(key=..., reverse=True)` modelled as a stable descending
insertion sort with Python's raising element comparison. -/
def pySortRev {α : Type} (κ : α → SKey) (l : List α) : Except Unit (List α) :=
  pySortRevAux κ [] l

/-- Line 154: sort key `(x.get('height', 0), x.get('filesize_bytes', 0))`
— both keys always exist in `format_info`, so the defaults never fire. -/
def keyHV (fi : NormalizedFormat) : SKey := (fi.height, fi.filesize_bytes)

/-- Line 156: sort key `(x.get('abr', 0), x.get('filesize_bytes', 0))`. -/
def keyAB (fi : NormalizedFormat) : SKey := (fi.abr, fi.filesize_bytes)

/-- The categorized bucket dict returned at lines 158-162. -/
structure Buckets where
  combined : List NormalizedFormat
  video_only : List NormalizedFormat
  audio_only : List NormalizedFormat
deriving DecidableEq

/-- Function `categorize_formats` (lines 96-162): partition into the three lists,
sort each (a `TypeError` raised while sorting propagates), truncate to the
caps 10/5/5. -/
def categorize_formats (formats : List RawFormat) : Except Unit Buckets :=
  match pySortRev keyHV (combinedList formats) with
  | .error e => .error e
  | .ok cs =>
    match pySortRev keyHV (videoOnlyList formats) with
    | .error e => .error e
    | .ok vs =>
      match pySortRev keyAB (audioOnlyList formats) with
      | .error e => .error e
      | .ok auds =>
        .ok { combined := cs.take 10, video_only := vs.take 5, audio_only := auds.take 5 }

/-- The `url` sources of a `/api/fetch` request (lines 300-309): the
`url` entry of the parsed JSON body after `request.get_json() or {}`
(`none` covers a missing body, a missing field, or a null value), the
form field, and the query parameter. -/
structure HttpRequest where
  isPost : Bool
  jsonUrl : Option String
  formUrl : Option String
  argsUrl : Option String
deriving DecidableEq

/-- Python `a or b` on optional strings: `a` unless it is falsy
(`None` or `""`). -/
def pyOrStr (a b : Option String) : Option String :=
  match a with
  | some s => if s != "" then some s else b
  | none => b

/-- Lines 305-309: `url = data.get('url') or request.form.get('url')`
for POST, `url = request.args.get('url')` for GET. -/
def fetch_url_value (r : HttpRequest) : Option String :=
  if r.isPost then pyOrStr r.jsonUrl r.formUrl
  else r.argsUrl

/-- Haystack starts with needle (char-by-char `==`). -/
def charsStartWith : List Char → List Char → Bool
  | [], _ => true
  | _ :: _, [] => false
  | a :: as2, b :: bs => a == b && charsStartWith as2 bs

/-- Needle occurs somewhere in haystack. -/
def charsContain (needle : List Char) : List Char → Bool
  | [] => charsStartWith needle []
  | b :: bs => charsStartWith needle (b :: bs) || charsContain needle bs

/-- Python `needle in hay` on strings: substring containment. -/
def strContains (needle hay : String) : Bool :=
  charsContain needle.data hay.data

/-- The `error` object built by `create_error_response`
(lines 253-262); the enclosing `success: False` flag is implied. -/
structure ApiError where
  message : String
  code : String
  timestamp : String
deriving DecidableEq

/-- Function `create_error_response` (lines 253-262). -/
def create_error_response (message error_code now : String) : ApiError :=
  { message := message, code := error_code, timestamp := now }

/-- The slice of the raw `info` dict that the claims read. -/
structure RawInfo where
  duration : PyField Nat
deriving DecidableEq

/-- Outcome of the `ydl.extract_info` boundary inside the `try` block:
a raw info dict, a `yt_dlp.DownloadError` with its message, or any other
exception with its message. -/
inductive ExtractOutcome where
  | success (info : RawInfo)
  | downloadError (msg : String)
  | otherError (msg : String)
deriving DecidableEq

/-- Result of `extract_video_info`: the success payload (restricted to
the duration fields the claims read) or an error object. -/
inductive ExtractResult where
  | ok (duration : String) (duration_seconds : Option Nat)
  | err (e : ApiError)
deriving DecidableEq

/-- Lines 217-226: classify a `yt_dlp.DownloadError` by message
substrings, first match wins; the fallback embeds the raw text. -/
def classifyDownloadError (error_msg now : String) : ApiError :=
  if strContains "Video unavailable" error_msg then
    create_error_response "الفيديو غير متاح أو محمي" "VIDEO_UNAVAILABLE" now
  else if strContains "Private video" error_msg then
    create_error_response "الفيديو خاص ولا يمكن الوصول إليه" "PRIVATE_VIDEO" now
  else if strContains "not supported" error_msg.toLower then
    create_error_response "المنصة غير مدعومة حالياً" "UNSUPPORTED_PLATFORM" now
  else
    create_error_response ("خطأ في تحليل الفيديو: " ++ error_msg) "EXTRACTION_ERROR" now

/-- The fixed generic message of the `except Exception` fallback
(line 230). -/
def unexpectedMessage : String := "حدث خطأ غير متوقع، يرجى المحاولة مرة أخرى"

/-- Function `extract_video_info` (lines 164-230), restricted to the fields the
claims read: on success, the formatted duration `format_duration(
info.get('duration'))` and `duration_seconds = info.get('duration', 0)`;
on `DownloadError`, the substring classification; on any other exception,
the fixed generic `UNEXPECTED_ERROR` (the raw detail is only logged). -/
def extract_video_info (outcome : ExtractOutcome) (now : String) : ExtractResult :=
  match outcome with
  | .success info =>
    .ok (format_duration (pyValOfOpt (pyGet info.duration))) (pyGetD 0 info.duration)
  | .downloadError msg => .err (classifyDownloadError msg now)
  | .otherError _ => .err (create_error_response unexpectedMessage "UNEXPECTED_ERROR" now)

/-- The sort key with missing components read as 0 — the order the spec
describes, and the one the raising comparison agrees with whenever it
returns at all. -/
def key0 (k : SKey) : Nat × Nat := (k.1.getD 0, k.2.getD 0)

/-- Strict lexicographic order on total keys. -/
def lexLtB (a b : Nat × Nat) : Bool :=
  decide (a.1 < b.1) || (decide (a.1 = b.1) && decide (a.2 < b.2))

/-- Key `keyHV` with missing components read as 0. -/
def keyHV0 (fi : NormalizedFormat) : Nat × Nat := key0 (keyHV fi)

/-- Key `keyAB` with missing components read as 0. -/
def keyAB0 (fi : NormalizedFormat) : Nat × Nat := key0 (keyAB fi)

/-- Total stable descending insertion: `x` goes before the first element
strictly below it, after any element with an equal key. -/
def insertRev {α : Type} (κ0 : α → Nat × Nat) (x : α) : List α → List α
  | [] => [x]
  | y :: ys => if lexLtB (κ0 y) (κ0 x) then x :: y :: ys else y :: insertRev κ0 x ys

/-- Fold of `insertRev` over the list. -/
def sortRevAux {α : Type} (κ0 : α → Nat × Nat) (acc : List α) : List α → List α
  | [] => acc
  | x :: xs => sortRevAux κ0 (insertRev κ0 x acc) xs

/-- Total stable descending insertion sort. -/
def sortRev {α : Type} (κ0 : α → Nat × Nat) (l : List α) : List α :=
  sortRevAux κ0 [] l

/-- Descending (non-strict) order of the projected keys along the list. -/
def SortedDescBy {α : Type} (κ0 : α → Nat × Nat) (l : List α) : Prop :=
  l.Pairwise fun a b => lexLtB (κ0 a) (κ0 b) = false

theorem lexLtB_true_iff (a b : Nat × Nat) :
    lexLtB a b = true ↔ (a.1 < b.1 ∨ (a.1 = b.1 ∧ a.2 < b.2)) := by
  simp [lexLtB]

theorem lexLtB_false_iff (a b : Nat × Nat) :
    lexLtB a b = false ↔ ¬(a.1 < b.1 ∨ (a.1 = b.1 ∧ a.2 < b.2)) := by
  rw [← lexLtB_true_iff]
  exact Bool.not_eq_true (lexLtB a b) |>.symm ▸ Iff.rfl

theorem pyEqO_getD {a b : Option Nat} (h : pyEqO a b = true) : a.getD 0 = b.getD 0 := by
  cases a <;> cases b <;> simp_all [pyEqO]

theorem pyLtO_ok {a b : Option Nat} {bl : Bool} (h : pyLtO a b = .ok bl) :
    ∃ x y, a = some x ∧ b = some y ∧ bl = decide (x < y) := by
  cases a <;> cases b <;> simp_all [pyLtO]

theorem pyEqO_false_some {x y : Nat} (h : ¬pyEqO (some x) (some y) = true) : x ≠ y := by
  simp_all [pyEqO]

theorem pyTupLt_ok {a b : SKey} {bl : Bool} (h : pyTupLt a b = .ok bl) :
    lexLtB (key0 a) (key0 b) = bl := by
  unfold pyTupLt at h
  split at h
  case isTrue h1 =>
    split at h
    case isTrue h2 =>
      simp at h
      have e1 := pyEqO_getD h1
      have e2 := pyEqO_getD h2
      simp [lexLtB, key0, e1, e2, ← h]
    case isFalse h2 =>
      obtain ⟨x, y, hx, hy, hbl⟩ := pyLtO_ok h
      have e1 := pyEqO_getD h1
      simp [lexLtB, key0, e1, hx, hy, hbl]
  case isFalse h1 =>
    obtain ⟨x, y, hx, hy, hbl⟩ := pyLtO_ok h
    rw [hx, hy] at h1
    have hne := pyEqO_false_some h1
    simp [lexLtB, key0, hx, hy, hbl, hne]

theorem pyInsertRev_ok {α : Type} (κ : α → SKey) (x : α) :
    ∀ (l r : List α), pyInsertRev κ x l = .ok r →
      insertRev (fun a => key0 (κ a)) x l = r := by
  intro l
  induction l with
  | nil => intro r h; simp [pyInsertRev] at h; simp [insertRev, h]
  | cons y ys ih =>
    intro r h
    rw [pyInsertRev] at h
    cases hc : pyTupLt (κ y) (κ x) with
    | error e => rw [hc] at h; exact absurd h (by simp)
    | ok bv =>
      rw [hc] at h
      have hk := pyTupLt_ok hc
      cases bv with
      | true =>
        simp at h
        simp [insertRev, hk, ← h]
      | false =>
        cases hr : pyInsertRev κ x ys with
        | error e => rw [hr] at h; exact absurd h (by simp)
        | ok r2 =>
          rw [hr] at h
          simp at h
          simp [insertRev, hk, ← h, ih r2 hr]

theorem pySortRevAux_ok {α : Type} (κ : α → SKey) :
    ∀ (l acc r : List α), pySortRevAux κ acc l = .ok r →
      sortRevAux (fun a => key0 (κ a)) acc l = r := by
  intro l
  induction l with
  | nil => intro acc r h; simp [pySortRevAux] at h; simp [sortRevAux, h]
  | cons x xs ih =>
    intro acc r h
    rw [pySortRevAux] at h
    cases hi : pyInsertRev κ x acc with
    | error e => rw [hi] at h; exact absurd h (by simp)
    | ok acc2 =>
      rw [hi] at h
      rw [sortRevAux, pyInsertRev_ok κ x acc acc2 hi]
      exact ih acc2 r h

theorem pySortRev_ok {α : Type} (κ : α → SKey) (l r : List α)
    (h : pySortRev κ l = .ok r) : sortRev (fun a => key0 (κ a)) l = r :=
  pySortRevAux_ok κ l [] r h

theorem mem_insertRev {α : Type} (κ0 : α → Nat × Nat) (x a : α) :
    ∀ l : List α, a ∈ insertRev κ0 x l ↔ a = x ∨ a ∈ l := by
  intro l
  induction l with
  | nil => simp [insertRev]
  | cons y ys ih =>
    rw [insertRev]
    split
    · simp [or_comm, or_assoc, or_left_comm]
    · simp [ih]
      tauto

theorem insertRev_pairwise {α : Type} (κ0 : α → Nat × Nat) (x : α) :
    ∀ l : List α, SortedDescBy κ0 l → SortedDescBy κ0 (insertRev κ0 x l) := by
  intro l
  induction l with
  | nil => intro _; simp [insertRev, SortedDescBy]
  | cons y ys ih =>
    intro h
    rw [SortedDescBy, List.pairwise_cons] at h
    obtain ⟨hy, hys⟩ := h
    rw [insertRev]
    split
    case isTrue hc =>
      rw [SortedDescBy, List.pairwise_cons]
      constructor
      · intro z hz
        rcases List.mem_cons.mp hz with hz | hz
        · subst hz
          rw [lexLtB_false_iff]; rw [lexLtB_true_iff] at hc; omega
        · have := hy z hz
          rw [lexLtB_false_iff]
          rw [lexLtB_true_iff] at hc
          rw [lexLtB_false_iff] at this
          omega
      · rw [SortedDescBy, List.pairwise_cons] at *
        exact ⟨hy, hys⟩
    case isFalse hc =>
      rw [SortedDescBy, List.pairwise_cons]
      constructor
      · intro z hz
        rcases (mem_insertRev κ0 x z ys).mp hz with hz | hz
        · subst hz
          simpa using hc
        · exact hy z hz
      · exact ih hys

theorem sortRevAux_pairwise {α : Type} (κ0 : α → Nat × Nat) :
    ∀ (l acc : List α), SortedDescBy κ0 acc → SortedDescBy κ0 (sortRevAux κ0 acc l) := by
  intro l
  induction l with
  | nil => intro acc h; simpa [sortRevAux] using h
  | cons x xs ih =>
    intro acc h
    rw [sortRevAux]
    exact ih _ (insertRev_pairwise κ0 x acc h)

theorem sortRev_pairwise {α : Type} (κ0 : α → Nat × Nat) (l : List α) :
    SortedDescBy κ0 (sortRev κ0 l) :=
  sortRevAux_pairwise κ0 l [] (by simp [SortedDescBy])

theorem mem_sortRevAux {α : Type} (κ0 : α → Nat × Nat) :
    ∀ (l acc : List α) (a : α), a ∈ sortRevAux κ0 acc l ↔ a ∈ acc ∨ a ∈ l := by
  intro l
  induction l with
  | nil => intro acc a; simp [sortRevAux]
  | cons x xs ih =>
    intro acc a
    rw [sortRevAux, ih]
    rw [mem_insertRev]
    simp
    tauto

theorem mem_sortRev {α : Type} (κ0 : α → Nat × Nat) (l : List α) (a : α) :
    a ∈ sortRev κ0 l ↔ a ∈ l := by
  rw [sortRev, mem_sortRevAux]
  simp

theorem lexLtB_ne {a b : Nat × Nat} (h : lexLtB a b = true) : a ≠ b := by
  rw [lexLtB_true_iff] at h
  intro he
  rw [Prod.ext_iff] at he
  omega

theorem filter_insertRev {α : Type} (κ0 : α → Nat × Nat) (k : Nat × Nat) (x : α) :
    ∀ l : List α, SortedDescBy κ0 l →
      (insertRev κ0 x l).filter (fun a => decide (κ0 a = k)) =
        l.filter (fun a => decide (κ0 a = k)) ++ (if κ0 x = k then [x] else []) := by
  intro l
  induction l with
  | nil =>
    intro _
    rw [insertRev]
    simp only [List.filter, List.nil_append]
    split <;> simp_all
  | cons y ys ih =>
    intro h
    rw [SortedDescBy, List.pairwise_cons] at h
    obtain ⟨hy, hys⟩ := h
    rw [insertRev]
    split
    case isTrue hc =>
      by_cases hk : κ0 x = k
      · have hnil : (y :: ys).filter (fun a => decide (κ0 a = k)) = [] := by
          rw [List.filter_eq_nil_iff]
          intro z hz
          rcases List.mem_cons.mp hz with hz | hz
          · subst hz
            simp only [decide_eq_true_eq]
            intro he
            exact lexLtB_ne hc (by rw [he, hk])
          · have h1 := hy z hz
            simp only [decide_eq_true_eq]
            intro he
            rw [lexLtB_false_iff] at h1
            rw [lexLtB_true_iff] at hc
            rw [← hk] at he
            rw [Prod.ext_iff] at he
            omega
        rw [List.filter_cons, if_pos (by simpa using hk), hnil, if_pos hk]
        simp
      · rw [List.filter_cons, if_neg (by simpa using hk), if_neg hk]
        simp
    case isFalse hc =>
      simp only [List.filter_cons]
      rw [ih hys]
      split <;> simp

theorem filter_sortRevAux {α : Type} (κ0 : α → Nat × Nat) (k : Nat × Nat) :
    ∀ (l acc : List α), SortedDescBy κ0 acc →
      (sortRevAux κ0 acc l).filter (fun a => decide (κ0 a = k)) =
        acc.filter (fun a => decide (κ0 a = k)) ++ l.filter (fun a => decide (κ0 a = k)) := by
  intro l
  induction l with
  | nil => intro acc h; simp [sortRevAux]
  | cons x xs ih =>
    intro acc h
    rw [sortRevAux, ih _ (insertRev_pairwise κ0 x acc h), filter_insertRev κ0 k x acc h]
    rw [List.filter_cons]
    by_cases hk : κ0 x = k
    · simp [hk]
    · simp [hk]

theorem filter_sortRev {α : Type} (κ0 : α → Nat × Nat) (k : Nat × Nat) (l : List α) :
    (sortRev κ0 l).filter (fun a => decide (κ0 a = k)) =
      l.filter (fun a => decide (κ0 a = k)) := by
  rw [sortRev, filter_sortRevAux κ0 k l [] (by simp [SortedDescBy])]
  simp

theorem filter_take_pre {α : Type} (p : α → Bool) (n : Nat) (l : List α) :
    (l.take n).filter p <+: l.filter p := by
  conv_rhs => rw [← List.take_append_drop n l]
  rw [List.filter_append]
  exact List.prefix_append _ _

theorem categorize_ok_elim {formats : List RawFormat} {b : Buckets}
    (h : categorize_formats formats = .ok b) :
    ∃ cs vs auds,
      pySortRev keyHV (combinedList formats) = .ok cs ∧
      pySortRev keyHV (videoOnlyList formats) = .ok vs ∧
      pySortRev keyAB (audioOnlyList formats) = .ok auds ∧
      b = ⟨cs.take 10, vs.take 5, auds.take 5⟩ := by
  unfold categorize_formats at h
  cases h1 : pySortRev keyHV (combinedList formats) with
  | error e => rw [h1] at h; exact absurd h (by simp)
  | ok cs =>
    rw [h1] at h
    cases h2 : pySortRev keyHV (videoOnlyList formats) with
    | error e => rw [h2] at h; exact absurd h (by simp)
    | ok vs =>
      rw [h2] at h
      cases h3 : pySortRev keyAB (audioOnlyList formats) with
      | error e => rw [h3] at h; exact absurd h (by simp)
      | ok auds =>
        rw [h3] at h
        simp at h
        exact ⟨cs, vs, auds, rfl, rfl, rfl, h.symm⟩

theorem mem_combined_src {formats : List RawFormat} {b : Buckets}
    (h : categorize_formats formats = .ok b) {fi : NormalizedFormat}
    (hm : fi ∈ b.combined) : ∃ fmt : RawFormat, fi = combinedInfo fmt := by
  obtain ⟨cs, vs, auds, h1, _, _, hb⟩ := categorize_ok_elim h
  subst hb
  have h5 : fi ∈ cs := List.take_subset 10 cs hm
  rw [← pySortRev_ok keyHV _ cs h1, mem_sortRev] at h5
  rw [combinedList, List.mem_filterMap] at h5
  obtain ⟨fmt, _, hf⟩ := h5
  split at hf
  · exact ⟨fmt, (Option.some_inj.mp hf).symm⟩
  · exact absurd hf (by simp)

theorem mem_video_src {formats : List RawFormat} {b : Buckets}
    (h : categorize_formats formats = .ok b) {fi : NormalizedFormat}
    (hm : fi ∈ b.video_only) : ∃ fmt : RawFormat, fi = videoOnlyInfo fmt := by
  obtain ⟨cs, vs, auds, _, h2, _, hb⟩ := categorize_ok_elim h
  subst hb
  have h5 : fi ∈ vs := List.take_subset 5 vs hm
  rw [← pySortRev_ok keyHV _ vs h2, mem_sortRev] at h5
  rw [videoOnlyList, List.mem_filterMap] at h5
  obtain ⟨fmt, _, hf⟩ := h5
  split at hf
  · exact ⟨fmt, (Option.some_inj.mp hf).symm⟩
  · exact absurd hf (by simp)

theorem mem_audio_src {formats : List RawFormat} {b : Buckets}
    (h : categorize_formats formats = .ok b) {fi : NormalizedFormat}
    (hm : fi ∈ b.audio_only) : ∃ fmt : RawFormat, fi = audioOnlyInfo fmt := by
  obtain ⟨cs, vs, auds, _, _, h3, hb⟩ := categorize_ok_elim h
  subst hb
  have h5 : fi ∈ auds := List.take_subset 5 auds hm
  rw [← pySortRev_ok keyAB _ auds h3, mem_sortRev] at h5
  rw [audioOnlyList, List.mem_filterMap] at h5
  obtain ⟨fmt, _, hf⟩ := h5
  split at hf
  · exact ⟨fmt, (Option.some_inj.mp hf).symm⟩
  · exact absurd hf (by simp)

theorem append_ne_empty_of_right (s t : String) (h : t ≠ "") : s ++ t ≠ "" := by
  intro he
  have hd := congrArg String.data he
  rw [String.data_append] at hd
  exact h (String.ext (List.append_eq_nil.mp hd).2)

theorem format_filesize_ne_empty (v : PyVal) : format_filesize v ≠ "" := by
  rw [format_filesize]
  split
  · intro hc; exact absurd hc (by rw [notSpecified]; simp)
  · split
    · intro hc; exact absurd hc (by rw [notSpecified]; simp)
    · split
      · exact append_ne_empty_of_right _ _ (by simp)
      · split
        · exact append_ne_empty_of_right _ _ (by simp)
        · split
          · exact append_ne_empty_of_right _ _ (by simp)
          · split
            · exact append_ne_empty_of_right _ _ (by simp)
            · exact append_ne_empty_of_right _ _ (by simp)

theorem append3_ne_empty (a b c : String) (hb : b ≠ "") : a ++ b ++ c ≠ "" := by
  intro he
  have hd := congrArg String.data he
  rw [String.data_append, String.data_append] at hd
  rw [List.append_eq_nil, List.append_eq_nil] at hd
  exact hb (String.ext hd.1.2)

theorem combinedInfo_filesize (fmt : RawFormat) :
    (combinedInfo fmt).filesize = format_filesize (pyValOfOpt (pyGet fmt.filesize)) := by
  simp only [combinedInfo]
  split
  · split <;> rfl
  · rfl

theorem combinedInfo_height (fmt : RawFormat) :
    (combinedInfo fmt).height = pyGet fmt.height := by
  simp only [combinedInfo]
  split
  case _ h heq => split <;> simp [mkFormatInfo, heq]
  case _ heq => simp [mkFormatInfo, heq]

theorem combinedInfo_quality_of_height (fmt : RawFormat) (hv : Nat)
    (hh : pyGet fmt.height = some hv) (h0 : hv ≠ 0) :
    (combinedInfo fmt).quality = some (toString hv ++ "p" ++ fpsSuffix (pyGet fmt.fps)) := by
  simp only [combinedInfo, hh]
  rw [if_pos (by simpa using h0)]

theorem videoOnlyInfo_filesize (fmt : RawFormat) :
    (videoOnlyInfo fmt).filesize = format_filesize (pyValOfOpt (pyGet fmt.filesize)) := by
  simp only [videoOnlyInfo]
  split
  · split <;> rfl
  · rfl

theorem videoOnlyInfo_height (fmt : RawFormat) :
    (videoOnlyInfo fmt).height = pyGet fmt.height := by
  simp only [videoOnlyInfo]
  split
  case _ h heq => split <;> simp [mkFormatInfo, heq]
  case _ heq => simp [mkFormatInfo, heq]

theorem videoOnlyInfo_quality_of_height (fmt : RawFormat) (hv : Nat)
    (hh : pyGet fmt.height = some hv) (h0 : hv ≠ 0) :
    (videoOnlyInfo fmt).quality = some (toString hv ++ "p (فيديو فقط)") := by
  simp only [videoOnlyInfo, hh]
  rw [if_pos (by simpa using h0)]

theorem audioOnlyInfo_quality (fmt : RawFormat) :
    (audioOnlyInfo fmt).quality = some (audioQuality fmt) := rfl

theorem audioOnlyInfo_filesize (fmt : RawFormat) :
    (audioOnlyInfo fmt).filesize = format_filesize (pyValOfOpt (pyGet fmt.filesize)) := rfl

theorem extListCheck_cases {e : Option String} (h : extListCheck e = true) :
    e = some "mp3" ∨ e = some "m4a" ∨ e = some "webm" := by
  cases e with
  | none => simp [extListCheck] at h
  | some s => simp [extListCheck] at h; tauto

theorem audioQuality_ne_empty (fmt : RawFormat) : audioQuality fmt ≠ "" := by
  rw [audioQuality]
  split
  · exact append_ne_empty_of_right _ _ (by simp)
  · split
    next h2 =>
      rcases extListCheck_cases h2 with he | he | he <;> rw [he] <;> decide
    next =>
      rw [defaultQuality]; decide

theorem charsStartWith_refl : ∀ l : List Char, charsStartWith l l = true := by
  intro l
  induction l with
  | nil => rfl
  | cons a as2 ih => rw [charsStartWith, ih]; simp

theorem charsContain_append : ∀ (t l : List Char), charsContain l (t ++ l) = true := by
  intro t
  induction t with
  | nil =>
    intro l
    rw [List.nil_append]
    cases l with
    | nil => rfl
    | cons b bs => rw [charsContain, charsStartWith_refl]; simp
  | cons c cs ih =>
    intro l
    rw [List.cons_append, charsContain, ih]
    simp

theorem strContains_append_right (t s : String) : strContains s (t ++ s) = true := by
  rw [strContains, String.data_append]
  exact charsContain_append t.data s.data

/-- C1: the claim says `categorize_formats` never raises and treats
missing fields as absent/zero.  The code contradicts this (and its own
dead `x.get('height', 0)` defaults): with two kept combined records, one
with `height` 720 and one with `height` missing, the sort compares the
key `(None, 0)` with `(720, 0)` and Python raises `TypeError`.  The model
evaluates to the raising branch on exactly that input. -/
theorem c1_classifier_raises_on_mixed_height :
    categorize_formats
      [{ format_id := .absent, url := .val "http://e/a", ext := .absent,
         format_note := .absent, width := .val 1280, height := .val 720,
         fps := .absent, vcodec := .val "avc1", acodec := .val "mp4a",
         abr := .absent, tbr := .absent, filesize := .absent },
       { format_id := .absent, url := .val "http://e/b", ext := .absent,
         format_note := .absent, width := .val 1280, height := .absent,
         fps := .absent, vcodec := .val "avc1", acodec := .val "mp4a",
         abr := .absent, tbr := .absent, filesize := .absent }] = .error () := by
  rfl

/-- C3 counterexample: a POST request whose only `url` is the query
parameter resolves to no url at all (the handler never reads
`request.args` on POST), so the claimed JSON → form → query precedence
is false at this input. -/
theorem c3_post_ignores_query_param :
    fetch_url_value
        { isPost := true, jsonUrl := none, formUrl := none,
          argsUrl := some "https://example.com/v" } = none ∧
      fetch_url_value
          { isPost := true, jsonUrl := none, formUrl := none,
            argsUrl := some "https://example.com/v" } ≠
        some "https://example.com/v" := by
  constructor
  · rfl
  · decide

/-- C3 amended: for POST the url is the JSON body's `url` if truthy,
otherwise the form field — the query parameter is not consulted; for GET
it is the query parameter. -/
theorem c3_url_precedence (r : HttpRequest) :
    (r.isPost = true →
      (∀ s, r.jsonUrl = some s → s ≠ "" → fetch_url_value r = some s) ∧
        ((r.jsonUrl = none ∨ r.jsonUrl = some "") → fetch_url_value r = r.formUrl)) ∧
      (r.isPost = false → fetch_url_value r = r.argsUrl) := by
  refine ⟨fun hp => ⟨fun s hs hs0 => ?_, fun hj => ?_⟩, fun hg => ?_⟩
  · rw [fetch_url_value, if_pos hp, hs]
    simp [pyOrStr, hs0]
  · rcases hj with hj | hj <;> rw [fetch_url_value, if_pos hp, hj] <;> simp [pyOrStr]
  · rw [fetch_url_value, hg]
    simp

/-- C3 witness: a concrete POST with a truthy JSON url takes it over the
form field. -/
theorem c3_url_precedence_witness :
    fetch_url_value
        { isPost := true, jsonUrl := some "https://example.com/j",
          formUrl := some "https://example.com/f", argsUrl := none } =
      some "https://example.com/j" :=
  (c3_url_precedence
        { isPost := true, jsonUrl := some "https://example.com/j",
          formUrl := some "https://example.com/f", argsUrl := none }).1
      rfl |>.1 "https://example.com/j" rfl (by decide)

/-- C7: `extract_video_info` classifies a `DownloadError` by message
substrings with first match winning — "Video unavailable" →
VIDEO_UNAVAILABLE, then "Private video" → PRIVATE_VIDEO, then
case-insensitive "not supported" → UNSUPPORTED_PLATFORM, otherwise
EXTRACTION_ERROR with the raw text embedded in the message. -/
theorem c7_download_error_mapping (msg now : String) :
    (strContains "Video unavailable" msg = true →
      extract_video_info (.downloadError msg) now =
        .err ⟨"الفيديو غير متاح أو محمي", "VIDEO_UNAVAILABLE", now⟩) ∧
      (strContains "Video unavailable" msg = false →
        strContains "Private video" msg = true →
        extract_video_info (.downloadError msg) now =
          .err ⟨"الفيديو خاص ولا يمكن الوصول إليه", "PRIVATE_VIDEO", now⟩) ∧
      (strContains "Video unavailable" msg = false →
        strContains "Private video" msg = false →
        strContains "not supported" msg.toLower = true →
        extract_video_info (.downloadError msg) now =
          .err ⟨"المنصة غير مدعومة حالياً", "UNSUPPORTED_PLATFORM", now⟩) ∧
      (strContains "Video unavailable" msg = false →
        strContains "Private video" msg = false →
        strContains "not supported" msg.toLower = false →
        extract_video_info (.downloadError msg) now =
            .err ⟨"خطأ في تحليل الفيديو: " ++ msg, "EXTRACTION_ERROR", now⟩ ∧
          strContains msg ("خطأ في تحليل الفيديو: " ++ msg) = true) := by
  refine ⟨fun h1 => ?_, fun h1 h2 => ?_, fun h1 h2 h3 => ?_, fun h1 h2 h3 => ⟨?_, ?_⟩⟩
  · simp [extract_video_info, classifyDownloadError, create_error_response, h1]
  · simp [extract_video_info, classifyDownloadError, create_error_response, h1, h2]
  · simp [extract_video_info, classifyDownloadError, create_error_response, h1, h2, h3]
  · simp [extract_video_info, classifyDownloadError, create_error_response, h1, h2, h3]
  · exact strContains_append_right "خطأ في تحليل الفيديو: " msg

/-- C7 witness: a message containing both "Video unavailable" and
"Private video" maps to VIDEO_UNAVAILABLE (first match wins). -/
theorem c7_download_error_mapping_witness :
    strContains "Video unavailable" "Video unavailable - Private video" = true ∧
      extract_video_info (.downloadError "Video unavailable - Private video") "t0" =
        .err ⟨"الفيديو غير متاح أو محمي", "VIDEO_UNAVAILABLE", "t0"⟩ :=
  ⟨by decide,
    (c7_download_error_mapping "Video unavailable - Private video" "t0").1 (by decide)⟩

/-- C8: an unexpected (non-extraction) exception yields a fixed generic
UNEXPECTED_ERROR response: two runs differing only in the exception's
message produce identical responses (for the same timestamp), so the raw
exception text never reaches the caller. -/
theorem c8_unexpected_error_generic (m1 m2 now : String) :
    extract_video_info (.otherError m1) now = extract_video_info (.otherError m2) now ∧
      extract_video_info (.otherError m1) now =
        .err ⟨unexpectedMessage, "UNEXPECTED_ERROR", now⟩ :=
  ⟨rfl, rfl⟩

/-- C10: a zero file size and a zero duration are treated exactly like an
absent one — both formatters return the placeholder, not "0.0 B" or
"00:00". -/
theorem c10_zero_is_absent :
    format_filesize (.int 0) = format_filesize .none_ ∧
      format_duration (.int 0) = format_duration .none_ ∧
      format_filesize .none_ = "غير محدد" ∧
      format_duration .none_ = "غير محدد" ∧
      format_filesize (.int 0) ≠ "0.0 B" ∧
      format_duration (.int 0) ≠ "00:00" := by
  refine ⟨rfl, rfl, rfl, rfl, by decide, by decide⟩

/-- C9 counterexample: the claim covers every numeric duration, but the
code first applies Python truthiness, so the numeric duration 0 yields
the placeholder instead of "00:00". -/
theorem c9_zero_duration_not_formatted :
    format_duration (.int 0) ≠ "00:00" ∧ format_duration (.int 0) = "غير محدد" := by
  refine ⟨by decide, rfl⟩

/-- C9 amended: for every nonzero numeric duration the result is
zero-padded "HH:MM:SS" when hours > 0 and "MM:SS" otherwise (3725 →
"01:02:05", 65 → "01:05"); a zero, absent, or non-numeric duration gives
the "not specified" placeholder; and the normalized `duration_seconds`
is 0 when the raw duration key is absent. -/
theorem c9_duration_formatting :
    (∀ n : Nat, n ≠ 0 → 0 < n / 3600 →
        format_duration (.int n) =
          pad2 (n / 3600) ++ ":" ++ pad2 (n % 3600 / 60) ++ ":" ++ pad2 (n % 60)) ∧
      (∀ n : Nat, n ≠ 0 → n / 3600 = 0 →
        format_duration (.int n) = pad2 (n % 3600 / 60) ++ ":" ++ pad2 (n % 60)) ∧
      format_duration (.int 3725) = "01:02:05" ∧
      format_duration (.int 65) = "01:05" ∧
      format_duration (.int 0) = "غير محدد" ∧
      format_duration .none_ = "غير محدد" ∧
      (∀ s : String, s ≠ "" → pyParseInt s = none → format_duration (.str s) = "غير محدد") ∧
      format_duration (.str "abc") = "غير محدد" ∧
      (∀ now : String,
        extract_video_info (.success { duration := .absent }) now =
          .ok "غير محدد" (some 0)) := by
  refine ⟨fun n h0 hh => ?_, fun n h0 hh => ?_, by decide, by decide, rfl, rfl,
    fun s hs0 hsn => ?_, by decide, fun now => rfl⟩
  · rw [format_duration]
    rw [if_neg (by simp [truthyVal, h0])]
    simp only [pyToInt]
    rw [if_pos hh]
  · rw [format_duration]
    rw [if_neg (by simp [truthyVal, h0])]
    simp only [pyToInt]
    rw [if_neg (by omega)]
  · rw [format_duration]
    rw [if_neg (by simp [truthyVal, hs0])]
    simp only [pyToInt, hsn]
    rfl

/-- C9 witness: the amended general clause applied at 3725 seconds. -/
theorem c9_duration_formatting_witness :
    (3725 ≠ 0 ∧ 0 < 3725 / 3600) ∧
      format_duration (.int 3725) =
        pad2 (3725 / 3600) ++ ":" ++ pad2 (3725 % 3600 / 60) ++ ":" ++ pad2 (3725 % 60) :=
  ⟨⟨by decide, by decide⟩, c9_duration_formatting.1 3725 (by decide) (by decide)⟩

theorem combinedList_singleton (fmt : RawFormat) (hk : keepFmt fmt = true)
    (hv : hasVideoB fmt = true) (ha : hasAudioB fmt = true) :
    combinedList [fmt] = [combinedInfo fmt] := by
  simp [combinedList, hk, hv, ha]

/-- C5: a kept record with a video stream (truthy vcodec and width), an
audio stream, and a truthy height lands in `combined` with quality label
exactly `"{height}p"`, the raw fps appended exactly when fps > 30. -/
theorem c5_combined_quality_label (fmt : RawFormat)
    (u : String) (hu : pyGet fmt.url = some u) (hu0 : u ≠ "")
    (vc : String) (hvc : pyGet fmt.vcodec = some vc) (hvc0 : vc ≠ "none")
    (w : Nat) (hw : pyGet fmt.width = some w) (hw0 : w ≠ 0)
    (ha : hasAudioB fmt = true)
    (hv : Nat) (hh : pyGet fmt.height = some hv) (hh0 : hv ≠ 0) :
    categorize_formats [fmt] = .ok ⟨[combinedInfo fmt], [], []⟩ ∧
      (combinedInfo fmt).quality =
        some (toString hv ++ "p" ++ fpsSuffix (pyGet fmt.fps)) ∧
      (∀ f, pyGet fmt.fps = some f → 30 < f → fpsSuffix (pyGet fmt.fps) = toString f) ∧
      (∀ f, pyGet fmt.fps = some f → f ≤ 30 → fpsSuffix (pyGet fmt.fps) = "") ∧
      (pyGet fmt.fps = none → fpsSuffix (pyGet fmt.fps) = "") := by
  have hkeep : keepFmt fmt = true := by simp [keepFmt, truthyS, hu, hu0]
  have hvid : hasVideoB fmt = true := by simp [hasVideoB, hvc, truthyN, hw, hvc0, hw0]
  refine ⟨?_, combinedInfo_quality_of_height fmt hv hh hh0,
    fun f hf h30 => ?_, fun f hf h30 => ?_, fun hf => ?_⟩
  · have hc := combinedList_singleton fmt hkeep hvid ha
    have hvl : videoOnlyList [fmt] = [] := by simp [videoOnlyList, ha]
    have hal : audioOnlyList [fmt] = [] := by simp [audioOnlyList, hvid]
    rw [categorize_formats, hc, hvl, hal]
    rfl
  · rw [hf, fpsSuffix, if_pos h30]
  · rw [hf, fpsSuffix, if_neg (by omega)]
  · rw [hf, fpsSuffix]

/-- C5 witness: the spec's example — 720-height record with fps 60 gets
the label "720p60". -/
theorem c5_combined_quality_label_witness :
    categorize_formats
          [{ format_id := .absent, url := .val "http://e/v", ext := .absent,
             format_note := .absent, width := .val 1280, height := .val 720,
             fps := .val 60, vcodec := .val "avc1", acodec := .val "mp4a",
             abr := .absent, tbr := .absent, filesize := .absent }] =
        .ok ⟨[combinedInfo
          { format_id := .absent, url := .val "http://e/v", ext := .absent,
            format_note := .absent, width := .val 1280, height := .val 720,
            fps := .val 60, vcodec := .val "avc1", acodec := .val "mp4a",
            abr := .absent, tbr := .absent, filesize := .absent }], [], []⟩ ∧
      (combinedInfo
          { format_id := .absent, url := .val "http://e/v", ext := .absent,
            format_note := .absent, width := .val 1280, height := .val 720,
            fps := .val 60, vcodec := .val "avc1", acodec := .val "mp4a",
            abr := .absent, tbr := .absent, filesize := .absent }).quality =
        some "720p60" := by
  have H := c5_combined_quality_label
    { format_id := .absent, url := .val "http://e/v", ext := .absent,
      format_note := .absent, width := .val 1280, height := .val 720,
      fps := .val 60, vcodec := .val "avc1", acodec := .val "mp4a",
      abr := .absent, tbr := .absent, filesize := .absent }
    "http://e/v" rfl (by decide) "avc1" rfl (by decide) 1280 rfl (by decide)
    rfl 720 rfl (by decide)
  exact ⟨H.1, by rw [H.2.1]; decide⟩

/-- C6: a kept record with an audio stream and no video stream lands in
`audio_only`; its quality label is `"{abr}kbps"` when abr is truthy, else
the uppercased extension when the extension is mp3/m4a/webm, else the
"standard quality" placeholder. -/
theorem c6_audio_quality_label (fmt : RawFormat)
    (u : String) (hu : pyGet fmt.url = some u) (hu0 : u ≠ "")
    (hv : hasVideoB fmt = false) (ha : hasAudioB fmt = true) :
    categorize_formats [fmt] = .ok ⟨[], [], [audioOnlyInfo fmt]⟩ ∧
      (audioOnlyInfo fmt).quality = some (audioQuality fmt) ∧
      (∀ a, pyGet fmt.abr = some a → a ≠ 0 →
        audioQuality fmt = toString a ++ "kbps") ∧
      (truthyN (pyGet fmt.abr) = false → ∀ e, pyGet fmt.ext = some e →
        extListCheck (pyGet fmt.ext) = true → audioQuality fmt = strUpper e) ∧
      (truthyN (pyGet fmt.abr) = false → extListCheck (pyGet fmt.ext) = false →
        audioQuality fmt = defaultQuality) := by
  have hkeep : keepFmt fmt = true := by simp [keepFmt, truthyS, hu, hu0]
  refine ⟨?_, audioOnlyInfo_quality fmt, fun a habr ha0 => ?_,
    fun hab e he hext => ?_, fun hab hext => ?_⟩
  · have hc : combinedList [fmt] = [] := by simp [combinedList, hv]
    have hvl : videoOnlyList [fmt] = [] := by simp [videoOnlyList, hv]
    have hal : audioOnlyList [fmt] = [audioOnlyInfo fmt] := by
      simp [audioOnlyList, hkeep, hv, ha]
    rw [categorize_formats, hc, hvl, hal]
    rfl
  · rw [audioQuality, habr, if_pos (by simp [truthyN, ha0])]
    rfl
  · rw [audioQuality, if_neg (by rw [hab]; simp), if_pos hext, he]
    rfl
  · rw [audioQuality, if_neg (by rw [hab]; simp), if_neg (by rw [hext]; simp)]

/-- C6 witness: the spec's example — vcodec "none", acodec "mp4a",
abr 128 lands in `audio_only` with label "128kbps". -/
theorem c6_audio_quality_label_witness :
    categorize_formats
          [{ format_id := .absent, url := .val "http://e/a2", ext := .absent,
             format_note := .absent, width := .absent, height := .absent,
             fps := .absent, vcodec := .val "none", acodec := .val "mp4a",
             abr := .val 128, tbr := .absent, filesize := .absent }] =
        .ok ⟨[], [], [audioOnlyInfo
          { format_id := .absent, url := .val "http://e/a2", ext := .absent,
            format_note := .absent, width := .absent, height := .absent,
            fps := .absent, vcodec := .val "none", acodec := .val "mp4a",
            abr := .val 128, tbr := .absent, filesize := .absent }]⟩ ∧
      (audioOnlyInfo
          { format_id := .absent, url := .val "http://e/a2", ext := .absent,
            format_note := .absent, width := .absent, height := .absent,
            fps := .absent, vcodec := .val "none", acodec := .val "mp4a",
            abr := .val 128, tbr := .absent, filesize := .absent }).quality =
        some "128kbps" := by
  have H := c6_audio_quality_label
    { format_id := .absent, url := .val "http://e/a2", ext := .absent,
      format_note := .absent, width := .absent, height := .absent,
      fps := .absent, vcodec := .val "none", acodec := .val "mp4a",
      abr := .val 128, tbr := .absent, filesize := .absent }
    "http://e/a2" rfl (by decide) rfl rfl
  refine ⟨H.1, ?_⟩
  rw [H.2.1, H.2.2.1 128 rfl (by decide)]
  decide

theorem pySortRev_ok_HV (l r : List NormalizedFormat)
    (h : pySortRev keyHV l = .ok r) : sortRev keyHV0 l = r :=
  pySortRev_ok keyHV l r h

theorem pySortRev_ok_AB (l r : List NormalizedFormat)
    (h : pySortRev keyAB l = .ok r) : sortRev keyAB0 l = r :=
  pySortRev_ok keyAB l r h

/-- C2: whenever `categorize_formats` returns, each bucket respects its
cap (10/5/5), `combined` and `video_only` are descending by
(height, filesize_bytes) and `audio_only` by (abr, filesize_bytes) with
missing key values read as 0, and the sort is stable: for any key value,
the bucket's records with that key form a prefix, in original extractor
order, of the collected records with that key. -/
theorem c2_bucket_caps_and_order (formats : List RawFormat) (b : Buckets)
    (h : categorize_formats formats = .ok b) :
    b.combined.length ≤ 10 ∧ b.video_only.length ≤ 5 ∧ b.audio_only.length ≤ 5 ∧
      SortedDescBy keyHV0 b.combined ∧ SortedDescBy keyHV0 b.video_only ∧
      SortedDescBy keyAB0 b.audio_only ∧
      (∀ k, b.combined.filter (fun fi => decide (keyHV0 fi = k)) <+:
        (combinedList formats).filter (fun fi => decide (keyHV0 fi = k))) ∧
      (∀ k, b.video_only.filter (fun fi => decide (keyHV0 fi = k)) <+:
        (videoOnlyList formats).filter (fun fi => decide (keyHV0 fi = k))) ∧
      (∀ k, b.audio_only.filter (fun fi => decide (keyAB0 fi = k)) <+:
        (audioOnlyList formats).filter (fun fi => decide (keyAB0 fi = k))) := by
  obtain ⟨cs, vs, auds, h1, h2, h3, hb⟩ := categorize_ok_elim h
  subst hb
  have e1 := pySortRev_ok_HV _ cs h1
  have e2 := pySortRev_ok_HV _ vs h2
  have e3 := pySortRev_ok_AB _ auds h3
  refine ⟨?_, ?_, ?_, ?_, ?_, ?_, fun k => ?_, fun k => ?_, fun k => ?_⟩
  · rw [show (Buckets.mk (cs.take 10) (vs.take 5) (auds.take 5)).combined = cs.take 10 from rfl,
      List.length_take]
    exact Nat.min_le_left _ _
  · rw [show (Buckets.mk (cs.take 10) (vs.take 5) (auds.take 5)).video_only = vs.take 5 from rfl,
      List.length_take]
    exact Nat.min_le_left _ _
  · rw [show (Buckets.mk (cs.take 10) (vs.take 5) (auds.take 5)).audio_only = auds.take 5 from rfl,
      List.length_take]
    exact Nat.min_le_left _ _
  · exact List.Pairwise.sublist (List.take_sublist 10 cs) (e1 ▸ sortRev_pairwise keyHV0 _)
  · exact List.Pairwise.sublist (List.take_sublist 5 vs) (e2 ▸ sortRev_pairwise keyHV0 _)
  · exact List.Pairwise.sublist (List.take_sublist 5 auds) (e3 ▸ sortRev_pairwise keyAB0 _)
  · have hcf : (combinedList formats).filter (fun fi => decide (keyHV0 fi = k)) =
        cs.filter (fun fi => decide (keyHV0 fi = k)) := by
      rw [← filter_sortRev keyHV0 k (combinedList formats), e1]
    rw [show (Buckets.mk (cs.take 10) (vs.take 5) (auds.take 5)).combined = cs.take 10 from rfl,
      hcf]
    exact filter_take_pre _ 10 cs
  · have hcf : (videoOnlyList formats).filter (fun fi => decide (keyHV0 fi = k)) =
        vs.filter (fun fi => decide (keyHV0 fi = k)) := by
      rw [← filter_sortRev keyHV0 k (videoOnlyList formats), e2]
    rw [show (Buckets.mk (cs.take 10) (vs.take 5) (auds.take 5)).video_only = vs.take 5 from rfl,
      hcf]
    exact filter_take_pre _ 5 vs
  · have hcf : (audioOnlyList formats).filter (fun fi => decide (keyAB0 fi = k)) =
        auds.filter (fun fi => decide (keyAB0 fi = k)) := by
      rw [← filter_sortRev keyAB0 k (audioOnlyList formats), e3]
    rw [show (Buckets.mk (cs.take 10) (vs.take 5) (auds.take 5)).audio_only = auds.take 5 from rfl,
      hcf]
    exact filter_take_pre _ 5 auds

/-- Input for the C2 witness: one ordinary combined record. -/
def c2fs : List RawFormat :=
  [{ format_id := .absent, url := .val "http://e/w2", ext := .absent,
     format_note := .absent, width := .val 1280, height := .val 720,
     fps := .absent, vcodec := .val "avc1", acodec := .val "mp4a",
     abr := .absent, tbr := .absent, filesize := .absent }]

/-- The normalized record produced for the single element of `c2fs`. -/
def c2fi : NormalizedFormat :=
  { id := some ""
    url := some "http://e/w2"
    ext := some "mp4"
    quality := some "720p"
    filesize := "غير محدد"
    filesize_bytes := some 0
    width := some 1280
    height := some 720
    fps := none
    vcodec := some "avc1"
    acodec := some "mp4a"
    abr := none
    tbr := none }

/-- Buckets produced for `c2fs`. -/
def c2b : Buckets :=
  { combined := [c2fi], video_only := [], audio_only := [] }

/-- C2 witness: the caps/order/stability conclusion at the concrete
input `c2fs`. -/
theorem c2_bucket_caps_and_order_witness :
    categorize_formats c2fs = .ok c2b ∧
      (c2b.combined.length ≤ 10 ∧ c2b.video_only.length ≤ 5 ∧
        c2b.audio_only.length ≤ 5 ∧
        SortedDescBy keyHV0 c2b.combined ∧ SortedDescBy keyHV0 c2b.video_only ∧
        SortedDescBy keyAB0 c2b.audio_only ∧
        (∀ k, c2b.combined.filter (fun fi => decide (keyHV0 fi = k)) <+:
          (combinedList c2fs).filter (fun fi => decide (keyHV0 fi = k))) ∧
        (∀ k, c2b.video_only.filter (fun fi => decide (keyHV0 fi = k)) <+:
          (videoOnlyList c2fs).filter (fun fi => decide (keyHV0 fi = k))) ∧
        (∀ k, c2b.audio_only.filter (fun fi => decide (keyAB0 fi = k)) <+:
          (audioOnlyList c2fs).filter (fun fi => decide (keyAB0 fi = k)))) :=
  have h : categorize_formats c2fs = .ok c2b := by rfl
  ⟨h, c2_bucket_caps_and_order c2fs c2b h⟩

/-- C4 counterexample: a kept combined record with a present-but-empty
`format_note` and no height keeps the raw note as its quality label, so a
kept record's quality is the empty string — the claimed invariant fails.
The single bucket entry's quality evaluates to `some ""`. -/
theorem c4_empty_quality_counterexample :
    (categorize_formats
          [{ format_id := .absent, url := .val "http://e/c4", ext := .absent,
             format_note := .val "", width := .val 640, height := .absent,
             fps := .absent, vcodec := .val "avc1", acodec := .val "mp4a",
             abr := .absent, tbr := .absent, filesize := .absent }]).toOption.map
        (fun b => b.combined.map fun fi => fi.quality) = some [some ""] := by
  rfl

/-- C4 amended: for every kept record the filesize label is non-empty;
the quality label is a non-empty string for every `audio_only` record,
and for every `combined`/`video_only` record whose height is truthy
(records without a truthy height keep the raw `format_note`, which may be
empty or null). -/
theorem c4_labels_nonempty (formats : List RawFormat) (b : Buckets)
    (h : categorize_formats formats = .ok b) :
    (∀ fi ∈ b.combined, fi.filesize ≠ "" ∧
      ∀ hv, fi.height = some hv → hv ≠ 0 → ∃ s, fi.quality = some s ∧ s ≠ "") ∧
      (∀ fi ∈ b.video_only, fi.filesize ≠ "" ∧
        ∀ hv, fi.height = some hv → hv ≠ 0 → ∃ s, fi.quality = some s ∧ s ≠ "") ∧
      (∀ fi ∈ b.audio_only, fi.filesize ≠ "" ∧
        ∃ s, fi.quality = some s ∧ s ≠ "") := by
  refine ⟨fun fi hm => ?_, fun fi hm => ?_, fun fi hm => ?_⟩
  · obtain ⟨fmt, rfl⟩ := mem_combined_src h hm
    refine ⟨?_, fun hv hh hh0 => ?_⟩
    · rw [combinedInfo_filesize]
      exact format_filesize_ne_empty _
    · rw [combinedInfo_height] at hh
      exact ⟨_, combinedInfo_quality_of_height fmt hv hh hh0,
        append3_ne_empty _ _ _ (by decide)⟩
  · obtain ⟨fmt, rfl⟩ := mem_video_src h hm
    refine ⟨?_, fun hv hh hh0 => ?_⟩
    · rw [videoOnlyInfo_filesize]
      exact format_filesize_ne_empty _
    · rw [videoOnlyInfo_height] at hh
      exact ⟨_, videoOnlyInfo_quality_of_height fmt hv hh hh0,
        append_ne_empty_of_right _ _ (by decide)⟩
  · obtain ⟨fmt, rfl⟩ := mem_audio_src h hm
    exact ⟨format_filesize_ne_empty _,
      audioQuality fmt, audioOnlyInfo_quality fmt, audioQuality_ne_empty fmt⟩

/-- Input for the C4 witness: one audio-only record with abr 64. -/
def c4fs : List RawFormat :=
  [{ format_id := .absent, url := .val "http://e/w4", ext := .absent,
     format_note := .absent, width := .absent, height := .absent,
     fps := .absent, vcodec := .val "none", acodec := .val "opus",
     abr := .val 64, tbr := .absent, filesize := .absent }]

/-- The normalized record produced for the single element of `c4fs`. -/
def c4fi : NormalizedFormat :=
  { id := some ""
    url := some "http://e/w4"
    ext := some "mp4"
    quality := some "64kbps"
    filesize := "غير محدد"
    filesize_bytes := some 0
    width := none
    height := none
    fps := none
    vcodec := some "none"
    acodec := some "opus"
    abr := some 64
    tbr := none }

/-- Buckets produced for `c4fs`. -/
def c4b : Buckets :=
  { combined := [], video_only := [], audio_only := [c4fi] }

/-- C4 witness: the amended label invariant at the concrete input
`c4fs`. -/
theorem c4_labels_nonempty_witness :
    categorize_formats c4fs = .ok c4b ∧
      ((∀ fi ∈ c4b.combined, fi.filesize ≠ "" ∧
        ∀ hv, fi.height = some hv → hv ≠ 0 → ∃ s, fi.quality = some s ∧ s ≠ "") ∧
        (∀ fi ∈ c4b.video_only, fi.filesize ≠ "" ∧
          ∀ hv, fi.height = some hv → hv ≠ 0 → ∃ s, fi.quality = some s ∧ s ≠ "") ∧
        (∀ fi ∈ c4b.audio_only, fi.filesize ≠ "" ∧
          ∃ s, fi.quality = some s ∧ s ≠ "")) :=
  have h : categorize_formats c4fs = .ok c4b := by rfl
  ⟨h, c4_labels_nonempty c4fs c4b h⟩
